import Mathlib

/-!
Verification of the git-analyzer github module (repository punitarani/git-analyzer).

The Python sources under git_analyzer/github are shallowly embedded as
executable Lean definitions:

- commit.py     : Commit.getCommit, Commit.getCommitResult, Commit.save,
                  Commit.saveTrace, Commit.saveFull, filesToDf
- download.py   : Download.saveIndex, Download.downloadStep,
                  Download.downloadCommits, Download.numPages,
                  Download.getCommitsDf, Download.init
- repository.py : Repository.repoExists, Repository.getCommits,
                  Repository.getCommitsAsync
- github.py     : GitHub.updateRate, GitHub.get

Effects are made explicit: the on-disk artifact store is an association
list from artifact locations to written tables, network responses are
inputs, and pandas DataFrames built from lists of records are modelled
by the DataFrame structure below.
-/

namespace GitAnalyzer

/-! ## Data model -/

/-- One raw file record from the commit detail payload: an association list
of string fields, modelling a JSON object (a Python dict). -/
abbrev FileRecord := List (String × String)

/-- Model of a pandas DataFrame built from a list of records: a column list
plus one row per record, where a missing field is an explicit none
(pandas NaN). -/
structure DataFrame where
  columns : List String
  rows : List (List (Option String))
deriving Repr, DecidableEq

/-- Keys of one record, in order. -/
def recordKeys (r : FileRecord) : List String :=
  r.map Prod.fst

/-- Accumulate column names in order of first appearance, as
pd.DataFrame does for a list of dicts. -/
def addCols (acc : List String) (ks : List String) : List String :=
  ks.foldl (fun a k => if a.contains k then a else a ++ [k]) acc

/-- Field lookup inside one record. -/
def lookupField (r : FileRecord) (k : String) : Option String :=
  (r.find? (fun p => p.1 == k)).map Prod.snd

/-- Commit.__files_to_df (commit.py lines 310 to 326): pd.DataFrame(files).
The columns are the union of the record keys in order of first appearance;
each row lists the record values for those columns, none when absent. -/
def filesToDf (files : List FileRecord) : DataFrame :=
  let cols := files.foldl (fun a r => addCols a (recordKeys r)) []
  ⟨cols, files.map (fun r => cols.map (lookupField r))⟩

/-- The fixed 10-column change-table schema named by the spec. -/
def fixedChangeTableColumns : List String :=
  ["sha", "filename", "status", "additions", "deletions", "changes",
   "blob_url", "raw_url", "contents_url", "patch"]

/-! ## Claim C8 -/

/-- C8 counterexample: on the empty file list, Commit.__files_to_df
(pd.DataFrame([])) produces a table with no columns at all, not the fixed
10-column schema the claim asserts. -/
theorem filesToDf_empty_schema_counterexample :
    (filesToDf []).columns ≠ fixedChangeTableColumns := by
  decide

/-- C8 (amended): on the empty list of raw file records the change-table
parser returns a table with zero rows and zero columns; the fixed schema is
derived from the records present, so it is not materialized on empty
input. -/
theorem filesToDf_empty :
    filesToDf [] = ⟨[], []⟩ := by
  rfl

/-! ## HTTP layer (github.py) and commit detail fetch (commit.py) -/

/-- The commit detail payload returned by the remote. Only the fields the
verified claims touch are modelled: the files key is an Option because the
remote may omit it (accessing a missing dict key raises KeyError in the
source). -/
structure CommitPayload where
  sha : String
  files : Option (List FileRecord)
deriving Repr, DecidableEq

/-- An HTTP response: status code, the two optional rate-limit headers,
and the parsed JSON body. -/
structure HttpResponse where
  status : Nat
  ratelimitLimit : Option Int
  ratelimitRemaining : Option Int
  body : CommitPayload
deriving Repr, DecidableEq

/-- The rate-limit counters cached on the GitHub base object, both -1 until
first observed. -/
structure RateState where
  ratelimitLimit : Int
  ratelimitRemaining : Int
deriving Repr, DecidableEq

/-- GitHub.get, rate-limit part (github.py lines 91 to 95): each counter is
overwritten when the corresponding header is present, otherwise kept. -/
def GitHub.updateRate (st : RateState) (resp : HttpResponse) : RateState :=
  { ratelimitLimit := resp.ratelimitLimit.getD st.ratelimitLimit,
    ratelimitRemaining := resp.ratelimitRemaining.getD st.ratelimitRemaining }

/-- GitHub.get (github.py lines 56 to 101): issues the request (the
response is an input here), updates the cached rate-limit counters and
returns the response. The source inspects no status code and raises
nothing. GitHub.get_async (lines 103 to 154) has identical logic. -/
def GitHub.get (st : RateState) (resp : HttpResponse) : RateState × HttpResponse :=
  (GitHub.updateRate st resp, resp)

/-- The error taxonomy the specification prescribes for detail fetches. -/
inductive FetchError where
  | notFound
  | transient
deriving Repr, DecidableEq

/-- Commit.get_commit (commit.py lines 53 to 85) viewed as a fallible
operation: it calls GitHub.get and returns resp.json(). The source contains
no status check and no raise, so the embedding is total and always returns
the body; Commit.get_commit_async (lines 162 to 199) is identical. -/
def Commit.getCommitResult (st : RateState) (resp : HttpResponse) :
    RateState × Except FetchError CommitPayload :=
  let p := GitHub.get st resp
  (p.1, Except.ok p.2.body)

/-- Commit.get_commit caching behaviour (commit.py lines 53 to 85): the
response body is stored in the data field only when cache is true and the
field is still empty; the fresh body is always returned. State passed is
(rate counters, cached data); Commit.get_commit_async (lines 162 to 199)
caches identically. -/
def Commit.getCommit (st : RateState) (data : Option CommitPayload)
    (cache : Bool) (resp : HttpResponse) :
    RateState × Option CommitPayload × CommitPayload :=
  let p := GitHub.get st resp
  (p.1, if cache && data.isNone then some p.2.body else data, p.2.body)

/-- A sequence of get_commit calls with cache=true over the given
responses, threading the rate counters and the cached data and collecting
the returned bodies in call order. -/
def Commit.getCommitCalls (st : RateState) (data : Option CommitPayload)
    (resps : List HttpResponse) :
    RateState × Option CommitPayload × List CommitPayload :=
  resps.foldl
    (fun acc r =>
      let out := Commit.getCommit acc.1 acc.2.1 true r
      (out.1, out.2.1, acc.2.2 ++ [out.2.2]))
    (st, data, [])

/-- Repository.exists (repository.py lines 49 to 64): true exactly when the
probe response carries status code 200. -/
def Repository.repoExists (status : Nat) : Bool :=
  status == 200

/-- The only fatal constructor-time error of Download (download.py). -/
inductive DownloadInitError where
  | repositoryNotFound
deriving Repr, DecidableEq

/-- Download.__init__ existence gate (download.py lines 42 to 47): raises
RepositoryNotFoundError whenever the existence probe is not a success. -/
def Download.init (status : Nat) : Except DownloadInitError Unit :=
  if Repository.repoExists status then Except.ok () else
    Except.error DownloadInitError.repositoryNotFound

/-- A concrete detail payload used in counterexamples. -/
def payloadEx : CommitPayload :=
  ⟨"deadbeef", none⟩

/-- Initial rate-limit state: both counters -1. -/
def rateInit : RateState :=
  ⟨-1, -1⟩

/-! ## Claim C4 -/

/-- C4 counterexample: at status 404 (absence), 403 (rate limit) and
500 (server failure) the detail fetch silently returns the parsed body; it
raises neither NotFoundError nor TransientError, because commit.py and
github.py never inspect the status code. -/
theorem getCommit_no_error_counterexample :
    (Commit.getCommitResult rateInit ⟨404, none, none, payloadEx⟩).2
      = Except.ok payloadEx ∧
    (Commit.getCommitResult rateInit ⟨403, none, none, payloadEx⟩).2
      = Except.ok payloadEx ∧
    (Commit.getCommitResult rateInit ⟨500, none, none, payloadEx⟩).2
      = Except.ok payloadEx := by
  exact ⟨rfl, rfl, rfl⟩

/-- C4 (amended): for every detail fetch, Commit.get_commit and
Commit.get_commit_async return the parsed response body regardless of the
HTTP status; non-success, rate-limit and server-error statuses raise no
error at fetch time, and absence only surfaces downstream as a missing-key
failure when the files field is accessed. -/
theorem getCommit_returns_body (st : RateState) (resp : HttpResponse) :
    (Commit.getCommitResult st resp).2 = Except.ok resp.body := by
  rfl

/-! ## Claim C9 -/

/-- C9: Repository.exists is true exactly when the probe status is 200, and
for every other status, rate-limit and server-error statuses included,
constructing Download fails with RepositoryNotFoundError, so a transient
probe failure is indistinguishable from a missing repository. -/
theorem repoExists_status_200 (status : Nat) :
    (Repository.repoExists status = true ↔ status = 200) ∧
    (status ≠ 200 →
      Download.init status = Except.error DownloadInitError.repositoryNotFound) := by
  constructor
  · simp [Repository.repoExists]
  · intro h
    simp [Download.init, Repository.repoExists, h]

/-- C9 witness: at the concrete server-error status 500 the existence gate
raises RepositoryNotFoundError. -/
theorem repoExists_status_200_witness :
    Download.init 500 = Except.error DownloadInitError.repositoryNotFound :=
  (repoExists_status_200 500).2 (by decide)

/-! ## Claim C10 -/

/-- Auxiliary step fact for the write-once cache: one further call with a
populated cache leaves the cached payload intact and returns the fresh
body. -/
theorem getCommit_cached_step (st : RateState) (p : CommitPayload)
    (resp : HttpResponse) :
    Commit.getCommit st (some p) true resp
      = (GitHub.updateRate st resp, some p, resp.body) := by
  rfl

/-- Fold form of the write-once cache fact, generalized over the
accumulated bodies. -/
theorem getCommitCalls_loop (resps : List HttpResponse) (st : RateState)
    (p : CommitPayload) (acc : List CommitPayload) :
    resps.foldl
      (fun acc r =>
        let out := Commit.getCommit acc.1 acc.2.1 true r
        (out.1, out.2.1, acc.2.2 ++ [out.2.2]))
      (st, some p, acc)
      = (resps.foldl (fun s r => GitHub.updateRate s r) st, some p,
         acc ++ resps.map HttpResponse.body) := by
  induction resps generalizing st acc with
  | nil => simp
  | cons r rs ih =>
      simp only [List.foldl_cons, List.map_cons]
      rw [getCommit_cached_step]
      rw [ih]
      simp

/-- C10: the cached detail payload is write-once: once the data field holds
a payload, every later sequence of get_commit calls with cache=true leaves
the cached payload unchanged, while each call still returns its own fresh
response body. -/
theorem cached_payload_write_once (st : RateState) (p : CommitPayload)
    (resps : List HttpResponse) :
    (Commit.getCommitCalls st (some p) resps).2.1 = some p ∧
    (Commit.getCommitCalls st (some p) resps).2.2
      = resps.map HttpResponse.body := by
  unfold Commit.getCommitCalls
  rw [getCommitCalls_loop]
  simp

/-! ## Artifact store and Commit.save (commit.py) -/

/-- The deterministic artifact location: commit.py lines 129 to 134 build
the path data/{repository}/{sha}.parquet, so the location is exactly the
(repository, sha) pair. -/
structure ArtifactPath where
  repository : String
  sha : String
deriving Repr, DecidableEq

/-- Rendering of an artifact location as the path string the source
builds. -/
def ArtifactPath.toFilePath (p : ArtifactPath) : String :=
  "data/" ++ p.repository ++ "/" ++ p.sha ++ ".parquet"

/-- The on-disk artifact store: written tables keyed by artifact location;
a write shadows earlier entries, lookup returns the most recent write. -/
abbrev FileStore := List (ArtifactPath × DataFrame)

/-- Commit.save (commit.py lines 114 to 156), with the change table already
parsed (self.changes populated): builds the deterministic path, creates
missing directories (no effect on the file map) and writes the table via
to_parquet only when the file is absent or overwrite is set; the path is
returned in every case. Commit.save_async (lines 233 to 281) is
identical. -/
def Commit.save (store : FileStore) (repository sha : String)
    (changes : DataFrame) (overwrite : Bool) : ArtifactPath × FileStore :=
  let path : ArtifactPath := ⟨repository, sha⟩
  if (store.lookup path).isNone || overwrite then
    (path, (path, changes) :: store)
  else
    (path, store)

/-- Primitive filesystem operations performed by Commit.save, in order. -/
inductive FsOp where
  | mkdir (dir : String)
  | write (path : String) (content : DataFrame)
  | rename (src : String) (dst : String)
deriving Repr, DecidableEq

/-- The filesystem trace of Commit.save (commit.py lines 114 to 156): a
parent mkdir, then, when the artifact is absent or overwrite is set, a
single direct to_parquet write at the final path. The source performs no
write to a temporary location and no rename. -/
def Commit.saveTrace (store : FileStore) (repository sha : String)
    (changes : DataFrame) (overwrite : Bool) : List FsOp :=
  let path : ArtifactPath := ⟨repository, sha⟩
  FsOp.mkdir ("data/" ++ repository) ::
    (if (store.lookup path).isNone || overwrite then
      [FsOp.write path.toFilePath changes]
    else
      [])

/-- Whether a trace performs a direct write at the given path. -/
def writesAt (trace : List FsOp) (p : String) : Bool :=
  trace.any fun op =>
    match op with
    | FsOp.write q _ => q == p
    | _ => false

/-- The write discipline the claim asserts: the artifact content reaches
its final path only through a rename from a different (temporary) location,
never through a direct write at the final path. -/
def atomicTempRename (trace : List FsOp) (finalPath : String) : Bool :=
  (trace.any fun op =>
    match op with
    | FsOp.rename src dst => dst == finalPath && src != finalPath
    | _ => false) &&
  (trace.all fun op =>
    match op with
    | FsOp.write q _ => q != finalPath
    | _ => true)

/-- An empty change table used as a concrete input. -/
def dfEx : DataFrame :=
  ⟨[], []⟩

/-- A key that lookup does not find occurs zero times in the store. -/
theorem lookup_none_countP {α β : Type} [BEq α] [LawfulBEq α] (k : α)
    (l : List (α × β)) (h : l.lookup k = none) :
    l.countP (fun e => e.1 == k) = 0 := by
  induction l with
  | nil => rfl
  | cons e es ih =>
      rw [List.lookup_cons] at h
      cases hek : k == e.1 with
      | true =>
          rw [hek] at h
          exact absurd h (by simp)
      | false =>
          rw [hek] at h
          have h2 : es.lookup k = none := h
          rw [List.countP_cons, ih h2]
          have hne : (e.1 == k) = false := by
            simp only [beq_eq_false_iff_ne] at hek ⊢
            exact fun hc => hek hc.symm
          simp [hne]

/-! ## Claim C2 -/

/-- C2: persisting with overwrite=false is idempotent: when the artifact is
initially absent, the first Commit.save writes it, and a second call with
identical inputs is a no-op that returns the same deterministic path and
leaves the store, hence the artifact bytes, unchanged; exactly one artifact
entry exists for that path. -/
theorem save_idempotent_skip (store : FileStore) (repository sha : String)
    (changes : DataFrame)
    (h : store.lookup (⟨repository, sha⟩ : ArtifactPath) = none) :
    (Commit.save store repository sha changes false).1
      = (⟨repository, sha⟩ : ArtifactPath) ∧
    Commit.save (Commit.save store repository sha changes false).2
        repository sha changes false
      = Commit.save store repository sha changes false ∧
    ((Commit.save store repository sha changes false).2).lookup
        (⟨repository, sha⟩ : ArtifactPath) = some changes ∧
    ((Commit.save store repository sha changes false).2).countP
        (fun e => e.1 == (⟨repository, sha⟩ : ArtifactPath)) = 1 := by
  have hcount : store.countP
      (fun e => e.1 == (⟨repository, sha⟩ : ArtifactPath)) = 0 :=
    lookup_none_countP _ store h
  have hwrite : Commit.save store repository sha changes false
      = (⟨repository, sha⟩, (⟨repository, sha⟩, changes) :: store) := by
    simp [Commit.save, h]
  refine ⟨by rw [hwrite], ?_, ?_, ?_⟩
  · rw [hwrite]
    simp [Commit.save, List.lookup_cons]
  · rw [hwrite]
    simp [List.lookup_cons]
  · rw [hwrite]
    rw [List.countP_cons]
    simp [hcount]

/-- C2 witness: on the empty store, saving twice with overwrite=false
leaves one artifact with the written table and the second call changes
nothing. -/
theorem save_idempotent_skip_witness :
    Commit.save (Commit.save ([] : FileStore) "repoA" "sha1" dfEx false).2
        "repoA" "sha1" dfEx false
      = Commit.save ([] : FileStore) "repoA" "sha1" dfEx false ∧
    ((Commit.save ([] : FileStore) "repoA" "sha1" dfEx false).2).lookup
        (⟨"repoA", "sha1"⟩ : ArtifactPath) = some dfEx ∧
    ((Commit.save ([] : FileStore) "repoA" "sha1" dfEx false).2).countP
        (fun e => e.1 == (⟨"repoA", "sha1"⟩ : ArtifactPath)) = 1 := by
  have h := save_idempotent_skip ([] : FileStore) "repoA" "sha1" dfEx rfl
  exact ⟨h.2.1, h.2.2.1, h.2.2.2⟩

/-! ## Claim C5 -/

/-- C5 counterexample: a writing Commit.save performs a direct to_parquet
write at the final deterministic path and never a temporary-location write
followed by a rename, so the write-via-temp-and-rename discipline the claim
asserts is false for this concrete persist. -/
theorem save_not_atomic_counterexample :
    writesAt (Commit.saveTrace [] "repoB" "sha2" dfEx false)
        (ArtifactPath.toFilePath ⟨"repoB", "sha2"⟩) = true ∧
    atomicTempRename (Commit.saveTrace [] "repoB" "sha2" dfEx false)
        (ArtifactPath.toFilePath ⟨"repoB", "sha2"⟩) = false := by
  constructor
  · rfl
  · rfl

/-- C5 (amended): every persist that writes does so with a single direct
in-place write of the artifact at the deterministic path, after creating
the parent directory; no temporary location and no rename are involved, so
all-or-nothing visibility for concurrent readers is not provided by the
write discipline. -/
theorem save_writes_in_place (store : FileStore) (repository sha : String)
    (changes : DataFrame) (overwrite : Bool)
    (h : ((store.lookup (⟨repository, sha⟩ : ArtifactPath)).isNone
      || overwrite) = true) :
    Commit.saveTrace store repository sha changes overwrite
      = [FsOp.mkdir ("data/" ++ repository),
         FsOp.write (ArtifactPath.toFilePath ⟨repository, sha⟩) changes] := by
  simp only [Commit.saveTrace, h, if_true]

/-- C5 witness: on the empty store the trace of a writing persist is
exactly the mkdir followed by the direct in-place write. -/
theorem save_writes_in_place_witness :
    Commit.saveTrace [] "repoB" "sha3" dfEx false
      = [FsOp.mkdir ("data/" ++ "repoB"),
         FsOp.write (ArtifactPath.toFilePath ⟨"repoB", "sha3"⟩) dfEx] :=
  save_writes_in_place [] "repoB" "sha3" dfEx false rfl

/-! ## Index store (download.py) -/

/-- One row of the per-repository index file: its sha key plus the rest of
the CSV row kept verbatim. -/
structure IndexRow where
  sha : String
  rest : String
deriving Repr, DecidableEq

/-- Download.save_index (download.py lines 207 to 253). The index file is
modelled as none when absent and some rows when present. When the file
exists, the rows whose sha already occurs in it are dropped from the batch
(commits.loc with isin) and the remainder is appended without touching the
stored rows (to_csv mode a, header False); when it does not exist, the
batch is written as the initial index. The batch itself is never
deduplicated. -/
def Download.saveIndex (existing : Option (List IndexRow))
    (commits : List IndexRow) : List IndexRow :=
  match existing with
  | some indexRows =>
      indexRows ++
        commits.filter (fun c => !((indexRows.map IndexRow.sha).contains c.sha))
  | none => commits

/-- Download.get_index (download.py lines 255 to 284): the stored rows when
the index file exists, the empty table otherwise. -/
def Download.getIndex (existing : Option (List IndexRow)) : List IndexRow :=
  existing.getD []

/-! ## Claim C1 -/

/-- C1 counterexample: merging an index holding sha A with a batch whose
two rows share sha B appends both rows, so the merged index contains sha B
twice; the merge never deduplicates within the new batch, refuting the
claim that every merge leaves each sha exactly once. -/
theorem saveIndex_duplicate_batch_counterexample :
    ¬ ((Download.saveIndex (some [⟨"A", "rowA"⟩])
        [⟨"B", "rowB1"⟩, ⟨"B", "rowB2"⟩]).map IndexRow.sha).Nodup := by
  decide

/-- C1 (amended): provided the stored index rows have pairwise distinct
shas and the new batch rows have pairwise distinct shas, the merge keeps
every previously stored row verbatim in its original position, appends
after them exactly the batch rows whose sha is unseen in the batch order,
and the resulting sha list is the union of old and new shas with each sha
exactly once; an absent index file is written as the batch itself. -/
theorem saveIndex_merge_union (existing batch : List IndexRow)
    (h1 : (existing.map IndexRow.sha).Nodup)
    (h2 : (batch.map IndexRow.sha).Nodup) :
    (Download.saveIndex (some existing) batch).take existing.length
      = existing ∧
    (Download.saveIndex (some existing) batch).drop existing.length
      = batch.filter
          (fun c => !((existing.map IndexRow.sha).contains c.sha)) ∧
    (∀ s, s ∈ (Download.saveIndex (some existing) batch).map IndexRow.sha ↔
      s ∈ existing.map IndexRow.sha ∨ s ∈ batch.map IndexRow.sha) ∧
    ((Download.saveIndex (some existing) batch).map IndexRow.sha).Nodup ∧
    Download.saveIndex none batch = batch := by
  have hcontains : ∀ (x : String) (l : List String),
      l.contains x = true ↔ x ∈ l := by
    intro x l
    simp [List.contains]
  simp only [Download.saveIndex]
  refine ⟨List.take_left existing _, List.drop_left existing _, ?_, ?_, trivial⟩
  · intro s
    rw [List.map_append, List.mem_append]
    constructor
    · intro hs
      rcases hs with hs | hs
      · exact Or.inl hs
      · obtain ⟨r, hr, hrs⟩ := List.mem_map.mp hs
        exact Or.inr (hrs ▸ List.mem_map_of_mem _ (List.mem_of_mem_filter hr))
    · intro hs
      rcases hs with hs | hs
      · exact Or.inl hs
      · by_cases hmem : s ∈ existing.map IndexRow.sha
        · exact Or.inl hmem
        · obtain ⟨r, hr, hrs⟩ := List.mem_map.mp hs
          refine Or.inr (List.mem_map.mpr ⟨r, List.mem_filter.mpr ⟨hr, ?_⟩, hrs⟩)
          cases hb : (existing.map IndexRow.sha).contains r.sha
          · simp
          · exact absurd (hrs ▸ (hcontains _ _).mp hb) hmem
  · rw [List.map_append, List.nodup_append]
    refine ⟨h1, h2.sublist ((List.filter_sublist batch).map IndexRow.sha), ?_⟩
    intro s hs hs2
    obtain ⟨r, hr, hrs⟩ := List.mem_map.mp hs2
    have hPr := (List.mem_filter.mp hr).2
    have hceq : (existing.map IndexRow.sha).contains r.sha = true :=
      (hcontains _ _).mpr (by rw [hrs]; exact hs)
    rw [hceq] at hPr
    simp at hPr

/-- C1 witness: merging an index holding shas A and B with a batch holding
shas B and C keeps the A and B rows verbatim in place, appends only the C
row, and yields the sha list A, B, C with each sha once. -/
theorem saveIndex_merge_union_witness :
    (Download.saveIndex (some [⟨"A", "rowA"⟩, ⟨"B", "rowB"⟩])
        [⟨"B", "rowBnew"⟩, ⟨"C", "rowC"⟩]).take
        ([⟨"A", "rowA"⟩, ⟨"B", "rowB"⟩] : List IndexRow).length
      = [⟨"A", "rowA"⟩, ⟨"B", "rowB"⟩] ∧
    (Download.saveIndex (some [⟨"A", "rowA"⟩, ⟨"B", "rowB"⟩])
        [⟨"B", "rowBnew"⟩, ⟨"C", "rowC"⟩]).drop
        ([⟨"A", "rowA"⟩, ⟨"B", "rowB"⟩] : List IndexRow).length
      = ([⟨"B", "rowBnew"⟩, ⟨"C", "rowC"⟩] : List IndexRow).filter
          (fun c =>
            !((([⟨"A", "rowA"⟩, ⟨"B", "rowB"⟩] : List IndexRow).map
                IndexRow.sha).contains c.sha)) ∧
    ((Download.saveIndex (some [⟨"A", "rowA"⟩, ⟨"B", "rowB"⟩])
        [⟨"B", "rowBnew"⟩, ⟨"C", "rowC"⟩]).map IndexRow.sha).Nodup := by
  have h := saveIndex_merge_union [⟨"A", "rowA"⟩, ⟨"B", "rowB"⟩]
    [⟨"B", "rowBnew"⟩, ⟨"C", "rowC"⟩] (by decide) (by decide)
  exact ⟨h.1, h.2.1, h.2.2.2.1⟩

/-! ## Orchestrator (download.py download_commits) -/

/-- One commit of the run: its listing row (used both to build the Commit
object and to merge the index) and the detail payload the remote would
return for it. -/
structure CommitInput where
  row : IndexRow
  payload : CommitPayload
deriving Repr, DecidableEq

/-- Commit.save when data and changes are still unfetched, as called from
Download.download_commits (commit.py lines 114 to 156 with lines 142 to
153): when the artifact is absent or overwrite is set, save parses, which
fetches the payload and reads data with the files key; a payload without
that key raises KeyError (modelled as the error case) before anything is
written, otherwise the parsed table is written. With the artifact present
and overwrite unset, nothing is fetched and the path is returned. -/
def Commit.saveFull (store : FileStore) (repository : String)
    (c : CommitInput) (overwrite : Bool) :
    Except Unit (ArtifactPath × FileStore) :=
  let path : ArtifactPath := ⟨repository, c.row.sha⟩
  if (store.lookup path).isNone || overwrite then
    match c.payload.files with
    | some fs => Except.ok (path, (path, filesToDf fs) :: store)
    | none => Except.error ()
  else
    Except.ok (path, store)

/-- The orchestrator state built by Download.download_commits: the artifact
store, the saved_files accumulator, and the per-item failures reported by
the except KeyError branch (download.py lines 146 to 147, which prints the
failing commit and moves on). -/
structure RunState where
  artifacts : FileStore
  savedFiles : List ArtifactPath
  failures : List String
deriving Repr, DecidableEq

/-- One iteration of the loop in Download.download_commits (download.py
lines 131 to 147): try saving the commit; on KeyError record the failure
and continue. Download.download_commits_async (lines 183 to 200) has the
same per-item logic. -/
def Download.downloadStep (repository : String) (overwrite : Bool)
    (st : RunState) (c : CommitInput) : RunState :=
  match Commit.saveFull st.artifacts repository c overwrite with
  | Except.ok p => { st with artifacts := p.2, savedFiles := st.savedFiles ++ [p.1] }
  | Except.error _ => { st with failures := st.failures ++ [c.row.sha] }

/-- The index file location of a repository. -/
def Download.indexFile (repository : String) : String :=
  "data/" ++ repository ++ "/index.csv"

/-- Download.download_commits (download.py lines 106 to 152): loop over the
listed commits, then merge the full listing into the index file and return
the index path. -/
def Download.downloadCommits (repository : String) (overwrite : Bool)
    (commits : List CommitInput) (init : FileStore)
    (existingIndex : Option (List IndexRow)) :
    RunState × List IndexRow × String :=
  (commits.foldl (Download.downloadStep repository overwrite) ⟨init, [], []⟩,
   Download.saveIndex existingIndex (commits.map CommitInput.row),
   Download.indexFile repository)

/-- A step never writes an artifact at a location whose sha belongs to a
commit without a files key, and never removes a failure already
recorded. -/
theorem downloadStep_preserves (repository : String) (overwrite : Bool)
    (s : String) (st : RunState) (c : CommitInput)
    (hc : c.row.sha = s → c.payload.files = none)
    (hst : st.artifacts.lookup (⟨repository, s⟩ : ArtifactPath) = none) :
    (Download.downloadStep repository overwrite st c).artifacts.lookup
      (⟨repository, s⟩ : ArtifactPath) = none ∧
    ∃ t, (Download.downloadStep repository overwrite st c).failures
      = st.failures ++ t := by
  unfold Download.downloadStep Commit.saveFull
  by_cases hcond :
      ((st.artifacts.lookup (⟨repository, c.row.sha⟩ : ArtifactPath)).isNone
        || overwrite) = true
  · rw [if_pos hcond]
    cases hfs : c.payload.files with
    | none => exact ⟨hst, [c.row.sha], rfl⟩
    | some fs =>
        have hne : c.row.sha ≠ s := by
          intro he
          rw [hc he] at hfs
          cases hfs
        simp only [List.lookup_cons]
        have hbeq : ((⟨repository, s⟩ : ArtifactPath)
            == (⟨repository, c.row.sha⟩ : ArtifactPath)) = false := by
          simp only [beq_eq_false_iff_ne]
          intro he
          exact hne (congrArg ArtifactPath.sha he).symm
        rw [hbeq]
        exact ⟨hst, [], by simp⟩
  · rw [if_neg hcond]
    exact ⟨hst, [], by simp⟩

/-- Folding the loop over any commit list whose rows with the given sha all
lack the files key keeps that sha artifact-free and only appends to the
failure list. -/
theorem downloadFold_preserves (repository : String) (overwrite : Bool)
    (s : String) (cs : List CommitInput) (st : RunState)
    (hcs : ∀ c ∈ cs, c.row.sha = s → c.payload.files = none)
    (hst : st.artifacts.lookup (⟨repository, s⟩ : ArtifactPath) = none) :
    ((cs.foldl (Download.downloadStep repository overwrite) st).artifacts.lookup
      (⟨repository, s⟩ : ArtifactPath) = none) ∧
    ∃ t, (cs.foldl (Download.downloadStep repository overwrite) st).failures
      = st.failures ++ t := by
  induction cs generalizing st with
  | nil => exact ⟨hst, [], by simp⟩
  | cons c cs ih =>
      obtain ⟨hl, t1, hf1⟩ := downloadStep_preserves repository overwrite s st c
        (hcs c (List.mem_cons_self c cs)) hst
      obtain ⟨hl2, t2, hf2⟩ := ih (Download.downloadStep repository overwrite st c)
        (fun d hd => hcs d (List.mem_cons_of_mem c hd)) hl
      exact ⟨hl2, t1 ++ t2, by rw [List.foldl_cons] at *; rw [hf2, hf1, List.append_assoc]⟩

/-- The step on a commit without a files key whose artifact is absent: the
KeyError branch records the failure and leaves the rest of the state
untouched. -/
theorem downloadStep_keyerror (repository : String) (overwrite : Bool)
    (st : RunState) (c : CommitInput)
    (hfs : c.payload.files = none)
    (hl : st.artifacts.lookup (⟨repository, c.row.sha⟩ : ArtifactPath) = none) :
    Download.downloadStep repository overwrite st c
      = { st with failures := st.failures ++ [c.row.sha] } := by
  have hcond : ((st.artifacts.lookup
      (⟨repository, c.row.sha⟩ : ArtifactPath)).isNone || overwrite) = true := by
    rw [hl]
    rfl
  unfold Download.downloadStep Commit.saveFull
  rw [if_pos hcond, hfs]

/-! ## Claim C3 -/

/-- C3: in every run containing a commit whose detail payload lacks the
files key, provided no artifact for that sha pre-exists and every listed
commit with that sha has the same malformed payload, the orchestrator
writes no artifact for that commit, records it in the per-item failures,
keeps processing (the fold runs to completion), and still merges and
returns the index; one bad commit never aborts the run. -/
theorem downloadCommits_skip_on_missing_files (repository : String)
    (overwrite : Bool) (commits : List CommitInput) (init : FileStore)
    (existingIndex : Option (List IndexRow)) (bad : CommitInput)
    (hmem : bad ∈ commits)
    (hfiles : bad.payload.files = none)
    (hfresh : init.lookup (⟨repository, bad.row.sha⟩ : ArtifactPath) = none)
    (hsha : ∀ c ∈ commits, c.row.sha = bad.row.sha → c.payload.files = none) :
    (Download.downloadCommits repository overwrite commits init
        existingIndex).1.artifacts.lookup
      (⟨repository, bad.row.sha⟩ : ArtifactPath) = none ∧
    bad.row.sha ∈ (Download.downloadCommits repository overwrite commits init
        existingIndex).1.failures ∧
    (Download.downloadCommits repository overwrite commits init
        existingIndex).2.1
      = Download.saveIndex existingIndex (commits.map CommitInput.row) ∧
    (Download.downloadCommits repository overwrite commits init
        existingIndex).2.2 = Download.indexFile repository := by
  obtain ⟨l1, l2, hsplit⟩ := List.append_of_mem hmem
  have hfold :
      (Download.downloadCommits repository overwrite commits init
          existingIndex).1
        = (bad :: l2).foldl (Download.downloadStep repository overwrite)
            (l1.foldl (Download.downloadStep repository overwrite)
              (⟨init, [], []⟩ : RunState)) := by
    unfold Download.downloadCommits
    rw [hsplit, List.foldl_append]
  obtain ⟨hl1, t1, hf1⟩ := downloadFold_preserves repository overwrite
    bad.row.sha l1 (⟨init, [], []⟩ : RunState)
    (fun c hc he => hsha c (by rw [hsplit]; simp [hc]) he)
    hfresh
  have hstep := downloadStep_keyerror repository overwrite
    (l1.foldl (Download.downloadStep repository overwrite)
      (⟨init, [], []⟩ : RunState)) bad hfiles hl1
  obtain ⟨hl2, t2, hf2⟩ := downloadFold_preserves repository overwrite
    bad.row.sha l2
    (Download.downloadStep repository overwrite
      (l1.foldl (Download.downloadStep repository overwrite)
        (⟨init, [], []⟩ : RunState)) bad)
    (fun c hc he => hsha c (by rw [hsplit]; simp [hc]) he)
    (by rw [hstep]; exact hl1)
  refine ⟨?_, ?_, rfl, rfl⟩
  · rw [hfold, List.foldl_cons]
    exact hl2
  · rw [hfold, List.foldl_cons, hf2, hstep]
    simp

/-- A well-formed first commit for the concrete run. -/
def commitEx1 : CommitInput :=
  ⟨⟨"g1", "row1"⟩, ⟨"g1", some [[("filename", "a.py")]]⟩⟩

/-- The malformed commit: its payload has no files key. -/
def commitExBad : CommitInput :=
  ⟨⟨"b1", "rowb"⟩, ⟨"b1", none⟩⟩

/-- A well-formed last commit for the concrete run. -/
def commitEx2 : CommitInput :=
  ⟨⟨"g2", "row2"⟩, ⟨"g2", some []⟩⟩

/-- C3 witness: in the concrete run over a good commit, the malformed
commit and another good commit, the malformed sha has no artifact, is
recorded as a failure, and the run still returns the index path. -/
theorem downloadCommits_skip_on_missing_files_witness :
    (Download.downloadCommits "repoC" false [commitEx1, commitExBad, commitEx2]
        [] none).1.artifacts.lookup
      (⟨"repoC", commitExBad.row.sha⟩ : ArtifactPath) = none ∧
    commitExBad.row.sha ∈ (Download.downloadCommits "repoC" false
        [commitEx1, commitExBad, commitEx2] [] none).1.failures ∧
    (Download.downloadCommits "repoC" false [commitEx1, commitExBad, commitEx2]
        [] none).2.2 = Download.indexFile "repoC" := by
  have h := downloadCommits_skip_on_missing_files "repoC" false
    [commitEx1, commitExBad, commitEx2] [] none commitExBad
    (by decide) rfl rfl (by decide)
  exact ⟨h.1, h.2.1, h.2.2.2⟩

/-! ## Commit listing (repository.py, download.py) -/

/-- Repository.get_commits (repository.py lines 66 to 108), sequential
path: page 1 is always fetched, then pages 2 up to max_pages in order, and
the pages are concatenated in page order. The abstract listing maps a page
number to the records that page returns. -/
def Repository.getCommits (listing : Nat → List IndexRow) (maxPages : Nat) :
    List IndexRow :=
  listing 1 ++ ((List.range' 2 (maxPages - 1)).map listing).flatten

/-- Repository.get_commits_async (repository.py lines 110 to 181): one task
per page in range(1, max_pages + 1) is added to a Python set, and
asyncio.gather receives the tasks in the iteration order of that set, so
the flattened result concatenates pages in that order. CPython set
iteration order over coroutine objects is unspecified, so taskOrder ranges
over the permutations of the page numbers 1 up to max_pages. -/
def Repository.getCommitsAsync (listing : Nat → List IndexRow)
    (taskOrder : List Nat) : List IndexRow :=
  (taskOrder.map listing).flatten

/-- Download num_pages (download.py line 40): math.ceil(n / 100). -/
def Download.numPages (numberOfCommits : Nat) : Nat :=
  (numberOfCommits + 99) / 100

/-- Download.get_commits_df (download.py lines 57 to 76): fetch num_pages
pages through the async listing path and truncate with iloc to the first
num_commits records of the flattened result. -/
def Download.getCommitsDf (listing : Nat → List IndexRow)
    (numberOfCommits : Nat) (taskOrder : List Nat) : List IndexRow :=
  (Repository.getCommitsAsync listing taskOrder).take numberOfCommits

/-- A concrete listing with 100 distinct records per page. -/
def listingPages (p : Nat) : List IndexRow :=
  (List.range 100).map fun i => ⟨"c" ++ toString p ++ "x" ++ toString i, ""⟩

/-- A concrete two-record-per-page listing. -/
def listingSmall (p : Nat) : List IndexRow :=
  [⟨"s" ++ toString p ++ "a", ""⟩, ⟨"s" ++ toString p ++ "b", ""⟩]

/-! ## Claim C6 -/

/-- C6: the page count matches ceil(150/100)=2 and the task order 2,1 is a
permutation of the requested pages, yet with that realizable set-iteration
order the orchestrator returns records of page 2 before those of page 1
instead of the first 150 records of the listing in original order: the
tasks live in an unordered set, so the truncation-correctness guarantee
fails. -/
theorem getCommitsDf_truncation_order_violated :
    Download.numPages 150 = 2 ∧
    List.Perm [2, 1] (List.range' 1 (Download.numPages 150)) ∧
    Download.getCommitsDf listingPages 150 [2, 1]
      ≠ (listingPages 1 ++ listingPages 2).take 150 := by
  refine ⟨rfl, by decide, ?_⟩
  intro h
  have hh := congrArg List.head? h
  rw [show (Download.getCommitsDf listingPages 150 [2, 1]).head?
        = some ⟨"c2x0", ""⟩ from by decide,
      show ((listingPages 1 ++ listingPages 2).take 150).head?
        = some ⟨"c1x0", ""⟩ from by decide] at hh
  exact absurd hh (by decide)

/-! ## Claim C7 -/

/-- C7: pages gathered from the task set are not reassembled by page
number: with the realizable set-iteration order 2,1 over max_pages=2, the
concurrent listing flattens page 2 before page 1 and so differs from the
sequential listing, while the insertion order 1,2 agrees with it; the
claimed order guarantee fails. -/
theorem getCommitsAsync_gather_order_violated :
    List.Perm [2, 1] (List.range' 1 2) ∧
    Repository.getCommitsAsync listingSmall [2, 1]
      ≠ Repository.getCommits listingSmall 2 ∧
    Repository.getCommitsAsync listingSmall [1, 2]
      = Repository.getCommits listingSmall 2 := by
  refine ⟨by decide, by decide, by decide⟩

end GitAnalyzer
